import Mathlib

/-!
# Evaluation cache fetcher of flagr (`pkg/handler/eval_cache_fetcher.go`)

A shallow embedding of the evaluation cache fetcher: the serialization
envelope `EvalCacheJSON`, the backend selector `newFetcher`, the four backend
variants with their `fetch` methods, the snapshot builder
`EvalCache.fetchAllFlags` and `EvalCache.export`.

Conventions of the embedding.

* A Go function returning `(value, error)` returns a pair whose second
  component is `Option GoError` (`none` is the `nil` error); a `nil` slice is
  the empty list; a `nil` map is `none` of `Option mapCache`.
* A method with a pointer receiver takes the receiver's state and returns the
  state after the call next to its results.
* Everything outside the file (the database, the file system, the HTTP client,
  the object store, `json.Unmarshal`, `entity.Flag.PrepareEvaluation`,
  `util.SafeString`) is a parameter.
* A `*entity.Flag` stored in a map is represented by the value it points to: no
  code of the file writes through such a pointer after the map is built.
-/

namespace Flagr

/-! ## Data model -/

/-- A Go `error` value, identified by the message it carries. -/
structure GoError where
  msg : String
deriving DecidableEq, Repr

/-- Modelled from the spec: the record type `entity.Flag`, declared outside the
file. A record has a numeric `ID`, a string `Key`, and nested rule and variant
data that this code never inspects, kept as `body`. -/
structure Flag (Body : Type) where
  ID : Nat
  Key : String
  body : Body
deriving DecidableEq, Repr

/-- The type `mapCache`, a Go `map[string]*entity.Flag`: a finite map with
unique keys. -/
abbrev mapCache (Body : Type) := AList (fun _ : String => Flag Body)

/-- The serialization envelope `EvalCacheJSON`. -/
structure EvalCacheJSON (Body : Type) where
  Flags : List (Flag Body)
deriving DecidableEq, Repr

/-- The fields of `EvalCache` this file reads: the current by-id map and the
current by-key map (either may still be the `nil` map). -/
structure EvalCache (Body : Type) where
  idCache : Option (mapCache Body)
  keyCache : Option (mapCache Body)

/-- Process configuration `config.Config`, the fields the file reads. -/
structure Config where
  EvalOnlyMode : Bool
  DBDriver : String
  DBConnectionStr : String
  EvalCacheRefreshTimeout : Nat
deriving DecidableEq, Repr

/-- A byte payload. -/
abbrev Bytes := List Nat

/-- An `io.ReadCloser`, given by what `ioutil.ReadAll` returns on it. -/
structure ReadCloser where
  readAll : Except GoError Bytes

/-- An `*http.Response`: its status code and its body. -/
structure Response where
  StatusCode : Nat
  Body : ReadCloser

/-- A database handle `*gorm.DB`. -/
structure DB where
  handle : Nat
deriving DecidableEq, Repr

/-- An object-storage session `*session.Session`. -/
structure Session where
  handle : Nat
deriving DecidableEq, Repr

/-- The collaborators of the file: what each external call returns. -/
structure World (Body : Type) where
  /-- The handler package's `getDB()`. -/
  getDB : DB
  /-- The query `entity.PreloadSegmentsVariants(db).Find(&fs).Error`: the slice
  it leaves in `fs` and its error. -/
  Find : DB → List (Flag Body) × Option GoError
  /-- The call `os.Open`. -/
  Open : String → Except GoError ReadCloser
  /-- The call `client.Get` of an `http.Client` with the given timeout. -/
  Get : Nat → String → Except GoError Response
  /-- The call `svc.GetObject` for a session, a bucket and a key. -/
  GetObject : Session → String → String → Except GoError ReadCloser
  /-- The call `session.NewSession`. -/
  NewSession : Session × Option GoError
  /-- The call `json.Unmarshal(b, ecj)`: the envelope it leaves in `ecj` and its
  error. -/
  Unmarshal : Bytes → EvalCacheJSON Body → EvalCacheJSON Body × Option GoError

variable {Body : Type}

/-! ## Serialization envelope -/

/-- Method `EvalCacheJSON.read`: read the whole stream, then unmarshal it into
the receiver. Returns the receiver after the call and the error. -/
def EvalCacheJSON.read (W : World Body) (ecj : EvalCacheJSON Body) (r : ReadCloser) :
    EvalCacheJSON Body × Option GoError :=
  match r.readAll with
  | .error err => (ecj, some err)
  | .ok b =>
    match W.Unmarshal b ecj with
    | (ecj1, some err) => (ecj1, some err)
    | (ecj1, none) => (ecj1, none)

/-! ## Source backends -/

/-- Backend reading a local file. -/
structure jsonFileFetcher where
  filePath : String
deriving DecidableEq, Repr

/-- Backend issuing an HTTP GET. -/
structure jsonHTTPFetcher where
  url : String
deriving DecidableEq, Repr

/-- Backend querying the database. -/
structure dbFetcher where
  db : DB
deriving DecidableEq, Repr

/-- Backend reading an object from object storage. -/
structure s3Fetcher where
  region : String
  bucket : String
  key : String
  retries : Nat
  timeout : Nat
  session : Session
deriving DecidableEq, Repr

/-- The interface `evalCacheFetcher` with its four implementing types. -/
inductive evalCacheFetcher where
  | db (df : dbFetcher)
  | jsonFile (ff : jsonFileFetcher)
  | jsonHTTP (hf : jsonHTTPFetcher)
  | s3 (sf : s3Fetcher)
deriving DecidableEq, Repr

/-- Method `jsonFileFetcher.fetch`. -/
def jsonFileFetcher.fetch (W : World Body) (ff : jsonFileFetcher) :
    List (Flag Body) × Option GoError :=
  match W.Open ff.filePath with
  | .error err => ([], some err)
  | .ok file =>
    match EvalCacheJSON.read W ⟨[]⟩ file with
    | (_, some err) => ([], some err)
    | (ecj, none) => (ecj.Flags, none)

/-- Method `jsonHTTPFetcher.fetch`. The status code of the response is not
read. -/
def jsonHTTPFetcher.fetch (cfg : Config) (W : World Body) (hf : jsonHTTPFetcher) :
    List (Flag Body) × Option GoError :=
  match W.Get cfg.EvalCacheRefreshTimeout hf.url with
  | .error err => ([], some err)
  | .ok res =>
    match EvalCacheJSON.read W ⟨[]⟩ res.Body with
    | (_, some err) => ([], some err)
    | (ecj, none) => (ecj.Flags, none)

/-- Method `dbFetcher.fetch`: the slice and the error of the query, both
returned as they are. -/
def dbFetcher.fetch (W : World Body) (df : dbFetcher) :
    List (Flag Body) × Option GoError :=
  W.Find df.db

/-- Function `newS3Fetcher`: the connection string is split and the pieces are
not used; only the session field is set, and the error of `NewSession` is
dropped. -/
def newS3Fetcher (W : World Body) (connectionStr : String) : s3Fetcher × Option GoError :=
  let _keyValus := connectionStr.splitOn " "
  let se := W.NewSession.1
  ({ region := "", bucket := "", key := "", retries := 0, timeout := 0, session := se }, none)

/-- Method `s3Fetcher.fetch`. -/
def s3Fetcher.fetch (W : World Body) (sf : s3Fetcher) :
    List (Flag Body) × Option GoError :=
  match W.GetObject sf.session sf.bucket sf.key with
  | .error err => ([], some err)
  | .ok body =>
    match EvalCacheJSON.read W ⟨[]⟩ body with
    | (_, some err) => ([], some err)
    | (ecj, none) => (ecj.Flags, none)

/-- Dynamic dispatch of `fetch` over the interface. -/
def evalCacheFetcher.fetch (cfg : Config) (W : World Body) :
    evalCacheFetcher → List (Flag Body) × Option GoError
  | .db df => df.fetch W
  | .jsonFile ff => ff.fetch W
  | .jsonHTTP hf => hf.fetch cfg W
  | .s3 sf => sf.fetch W

/-! ## Backend selector -/

/-- Function `newFetcher`: `.ok` is a fetcher with a `nil` error, `.error` is a
`nil` fetcher with an error. -/
def newFetcher (cfg : Config) (getDB : DB) : Except GoError evalCacheFetcher :=
  if !cfg.EvalOnlyMode then
    .ok (.db { db := getDB })
  else if cfg.DBDriver = "json_file" then
    .ok (.jsonFile { filePath := cfg.DBConnectionStr })
  else if cfg.DBDriver = "json_http" then
    .ok (.jsonHTTP { url := cfg.DBConnectionStr })
  else
    .error ⟨"failed to create evaluation cache fetcher. DBDriver:" ++ cfg.DBDriver
      ++ " is not supported"⟩

/-- The package-level function value `fetchAllFlags`. Next to the slice and the
error it returns, the result lists the fetchers on which `fetch` was called. -/
def fetchAllFlags (cfg : Config) (W : World Body) :
    (List (Flag Body) × Option GoError) × List evalCacheFetcher :=
  match newFetcher cfg W.getDB with
  | .error err => (([], some err), [])
  | .ok fetcher => (fetcher.fetch cfg W, [fetcher])

/-! ## Snapshot builder and export -/

/-- The loop of `EvalCache.fetchAllFlags` over the fetched slice, from the two
maps built so far. -/
def EvalCache.fetchAllFlags.loop (SafeString : Nat → String)
    (PrepareEvaluation : Flag Body → Except GoError (Flag Body)) :
    List (Flag Body) → mapCache Body → mapCache Body →
      Option (mapCache Body) × Option (mapCache Body) × Option GoError
  | [], idCache, keyCache => (some idCache, some keyCache, none)
  | f0 :: fs, idCache, keyCache =>
    match PrepareEvaluation f0 with
    | .error err => (none, none, some err)
    | .ok f =>
      let idCache1 := if f.ID ≠ 0 then idCache.insert (SafeString f.ID) f else idCache
      let keyCache1 := if f.Key ≠ "" then keyCache.insert f.Key f else keyCache
      EvalCache.fetchAllFlags.loop SafeString PrepareEvaluation fs idCache1 keyCache1

/-- Method `EvalCache.fetchAllFlags`, given what the package-level
`fetchAllFlags` returned. Returns the cache after the call (the method assigns
no field of it) and the triple `(idCache, keyCache, err)`. -/
def EvalCache.fetchAllFlags (SafeString : Nat → String)
    (PrepareEvaluation : Flag Body → Except GoError (Flag Body))
    (fetched : List (Flag Body) × Option GoError) (ec : EvalCache Body) :
    EvalCache Body × Option (mapCache Body) × Option (mapCache Body) × Option GoError :=
  match fetched with
  | (_, some err) => (ec, none, none, some err)
  | (fs, none) => (ec, EvalCache.fetchAllFlags.loop SafeString PrepareEvaluation fs ∅ ∅)

/-- Method `EvalCache.export`. A Go `range` over a map visits every entry once
in an order the language leaves open; `mapRange` is that order. Returns the
cache after the call and the envelope. -/
def EvalCache.export (mapRange : mapCache Body → List (Sigma fun _ : String => Flag Body))
    (ec : EvalCache Body) : EvalCache Body × EvalCacheJSON Body :=
  let visited := match ec.idCache with
    | none => []
    | some m => mapRange m
  (ec, ⟨visited.foldl (fun fs e => fs ++ [e.2]) []⟩)

/-! ## Auxiliary definitions -/

/-- The update of the by-id map in one iteration of the loop. -/
def idStep (SafeString : Nat → String) (m : mapCache Body) (f : Flag Body) : mapCache Body :=
  if f.ID ≠ 0 then m.insert (SafeString f.ID) f else m

/-- The update of the by-key map in one iteration of the loop. -/
def keyStep (m : mapCache Body) (f : Flag Body) : mapCache Body :=
  if f.Key ≠ "" then m.insert f.Key f else m

/-- One iteration's update of an index map: the record is stored under its
lookup key when the guard holds. -/
def indexStep (cond : Flag Body → Bool) (key : Flag Body → String) (m : mapCache Body)
    (f : Flag Body) : mapCache Body :=
  if cond f then m.insert (key f) f else m

/-- The entries of a map that may be the `nil` map. -/
def cacheEntries : Option (mapCache Body) → List (Sigma fun _ : String => Flag Body)
  | none => []
  | some m => m.entries

/-- The cache after a refresh from scratch that built its snapshot from `fs`:
its two maps are the two maps `EvalCache.fetchAllFlags` returned. -/
def builtCache (SafeString : Nat → String) (Prep : Flag Body → Except GoError (Flag Body))
    (fs : List (Flag Body)) : EvalCache Body :=
  ⟨(EvalCache.fetchAllFlags SafeString Prep (fs, none) ⟨none, none⟩).2.1,
    (EvalCache.fetchAllFlags SafeString Prep (fs, none) ⟨none, none⟩).2.2.1⟩

/-- The envelope exported from the built cache, encoded by `Marshal` and read
back by `EvalCacheJSON.read` into a fresh envelope. -/
def rereadExport (SafeString : Nat → String) (Prep : Flag Body → Except GoError (Flag Body))
    (mapRange : mapCache Body → List (Sigma fun _ : String => Flag Body))
    (W : World Body) (Marshal : EvalCacheJSON Body → Bytes) (fs : List (Flag Body)) :
    EvalCacheJSON Body × Option GoError :=
  EvalCacheJSON.read W ⟨[]⟩
    ⟨.ok (Marshal (EvalCache.export mapRange (builtCache SafeString Prep fs)).2)⟩

/-- The second build, from the records read back. -/
def rebuilt (SafeString : Nat → String) (Prep : Flag Body → Except GoError (Flag Body))
    (mapRange : mapCache Body → List (Sigma fun _ : String => Flag Body))
    (W : World Body) (Marshal : EvalCacheJSON Body → Bytes) (fs : List (Flag Body)) :
    Option (mapCache Body) × Option (mapCache Body) × Option GoError :=
  (EvalCache.fetchAllFlags SafeString Prep
    ((rereadExport SafeString Prep mapRange W Marshal fs).1.Flags, none)
    (builtCache SafeString Prep fs)).2

/-! ## Statements of the claims the code does not satisfy as written -/

/-- Status codes of the success class. -/
def isSuccessStatus (code : Nat) : Prop := 200 ≤ code ∧ code < 300

instance (code : Nat) : Decidable (isSuccessStatus code) := by
  unfold isSuccessStatus; infer_instance

/-- The statement "every non-success response is a fetch failure" for one
HTTP fetcher in one world. -/
def NonSuccessIsFailure (cfg : Config) (W : World Body) (hf : jsonHTTPFetcher) : Prop :=
  ∀ res, W.Get cfg.EvalCacheRefreshTimeout hf.url = .ok res → ¬ isSuccessStatus res.StatusCode →
    (hf.fetch cfg W).2 ≠ none ∧ (hf.fetch cfg W).1 = []

/-- The statement "every record with a non-zero ID is found under its ID and
every record with a non-empty Key is found under its Key" for one fetched list,
`p` giving the prepared form of a record. -/
def EveryRecordIndexed (SafeString : Nat → String)
    (Prep : Flag Body → Except GoError (Flag Body)) (p : Flag Body → Flag Body)
    (fs : List (Flag Body)) (ec : EvalCache Body) : Prop :=
  ∃ idc keyc,
    (EvalCache.fetchAllFlags SafeString Prep (fs, none) ec).2 = (some idc, some keyc, none) ∧
    ∀ r ∈ fs, (r.ID ≠ 0 → AList.lookup (SafeString r.ID) idc = some (p r)) ∧
      (r.Key ≠ "" → AList.lookup r.Key keyc = some (p r))

/-- The round-trip law for one record list: the first build, the read of the
exported envelope and the second build all succeed, and the second snapshot
agrees with the first at every by-id key and at every by-key key. -/
def RoundTripLaw (SafeString : Nat → String) (Prep : Flag Body → Except GoError (Flag Body))
    (mapRange : mapCache Body → List (Sigma fun _ : String => Flag Body))
    (W : World Body) (Marshal : EvalCacheJSON Body → Bytes) (fs : List (Flag Body)) : Prop :=
  (EvalCache.fetchAllFlags SafeString Prep (fs, none) ⟨none, none⟩).2.2.2 = none ∧
  (rereadExport SafeString Prep mapRange W Marshal fs).2 = none ∧
  (rebuilt SafeString Prep mapRange W Marshal fs).2.2 = none ∧
  (∀ s, (rebuilt SafeString Prep mapRange W Marshal fs).1.bind (AList.lookup s) =
    (builtCache SafeString Prep fs).idCache.bind (AList.lookup s)) ∧
  (∀ k, (rebuilt SafeString Prep mapRange W Marshal fs).2.1.bind (AList.lookup k) =
    (builtCache SafeString Prep fs).keyCache.bind (AList.lookup k))

/-! ## Concrete inputs -/

/-- A world in which every backend is unreachable. -/
def unreachableWorld : World Bool where
  getDB := ⟨0⟩
  Find := fun _ => ([], some ⟨"connection refused"⟩)
  Open := fun _ => .error ⟨"no such file or directory"⟩
  Get := fun _ _ => .error ⟨"connection refused"⟩
  GetObject := fun _ _ _ => .error ⟨"access denied"⟩
  NewSession := (⟨0⟩, none)
  Unmarshal := fun _ ecj => (ecj, some ⟨"unexpected end of JSON input"⟩)

/-- A world whose HTTP endpoint answers every GET with status 500 and a body
that decodes to an envelope of one record. -/
def serverErrorWorld : World Bool where
  getDB := ⟨0⟩
  Find := fun _ => ([], none)
  Open := fun _ => .error ⟨"no such file or directory"⟩
  Get := fun _ _ => .ok ⟨500, ⟨.ok [1]⟩⟩
  GetObject := fun _ _ _ => .error ⟨"access denied"⟩
  NewSession := (⟨0⟩, none)
  Unmarshal := fun b _ => if b = [1] then (⟨[⟨1, "a", false⟩]⟩, none)
    else (⟨[]⟩, some ⟨"invalid character"⟩)

/-- An encoder for the examples: the IDs of the envelope's records. -/
def tableMarshal : EvalCacheJSON Bool → Bytes :=
  fun ecj => ecj.Flags.map fun f => f.ID

/-- A world whose decoder reads back the two payloads of the examples: the
empty envelope, and the envelope of the prepared records 2 and 1. -/
def tableWorld : World Bool where
  getDB := ⟨0⟩
  Find := fun _ => ([], none)
  Open := fun _ => .error ⟨"no such file or directory"⟩
  Get := fun _ _ => .error ⟨"connection refused"⟩
  GetObject := fun _ _ _ => .error ⟨"access denied"⟩
  NewSession := (⟨0⟩, none)
  Unmarshal := fun b _ =>
    if b = [] then (⟨[]⟩, none)
    else if b = [2, 1] then (⟨[⟨2, "c", true⟩, ⟨1, "a", true⟩]⟩, none)
    else (⟨[]⟩, some ⟨"invalid character"⟩)

/-- A preparation that always succeeds and marks the record as prepared. -/
def markPrepared : Flag Bool → Except GoError (Flag Bool) :=
  fun f => .ok { f with body := true }

/-- The prepared form of a record under `markPrepared`. -/
def marked : Flag Bool → Flag Bool :=
  fun f => { f with body := true }

/-- The three records of the example: one with ID and Key, one with an ID only,
one with a Key only. -/
def exampleFlags : List (Flag Bool) :=
  [⟨1, "a", false⟩, ⟨2, "", false⟩, ⟨0, "b", false⟩]

/-- Two records sharing the ID 7. -/
def sharedIDFlags : List (Flag Bool) :=
  [⟨7, "a", false⟩, ⟨7, "b", false⟩]

/-- One record with ID 0 and the Key "b". -/
def keyOnlyFlags : List (Flag Bool) := [⟨0, "b", false⟩]

/-- Three records with distinct IDs and distinct Keys: two with a non-zero ID
and a Key, one with ID 0 and an empty Key. -/
def distinctFlags : List (Flag Bool) :=
  [⟨1, "a", false⟩, ⟨0, "", false⟩, ⟨2, "c", false⟩]

/-- A cache holding the snapshot of the example: two by-id entries, and in the
by-key map a record that has no by-id entry. -/
def exampleCache : EvalCache Bool :=
  ⟨some ((AList.singleton "1" ⟨1, "a", true⟩).insert "2" ⟨2, "", true⟩),
    some ((AList.singleton "a" ⟨1, "a", true⟩).insert "b" ⟨0, "b", true⟩)⟩

/-- A cache that has not been refreshed yet. -/
def emptyCache : EvalCache Bool := ⟨none, none⟩

/-! ## The loop of the snapshot builder -/

section Loop

variable (SafeString : Nat → String) (Prep : Flag Body → Except GoError (Flag Body))

theorem loop_nil (idCache keyCache : mapCache Body) :
    EvalCache.fetchAllFlags.loop SafeString Prep [] idCache keyCache =
      (some idCache, some keyCache, none) := rfl

theorem loop_cons_error {f : Flag Body} {e : GoError} (h : Prep f = .error e)
    (fs : List (Flag Body)) (idCache keyCache : mapCache Body) :
    EvalCache.fetchAllFlags.loop SafeString Prep (f :: fs) idCache keyCache =
      (none, none, some e) := by
  simp [EvalCache.fetchAllFlags.loop, h]

theorem loop_cons_ok {f g : Flag Body} (h : Prep f = .ok g)
    (fs : List (Flag Body)) (idCache keyCache : mapCache Body) :
    EvalCache.fetchAllFlags.loop SafeString Prep (f :: fs) idCache keyCache =
      EvalCache.fetchAllFlags.loop SafeString Prep fs (idStep SafeString idCache g)
        (keyStep keyCache g) := by
  simp [EvalCache.fetchAllFlags.loop, h, idStep, keyStep]

/-- When every preparation succeeds the loop returns the two folds of the
prepared records and no error. -/
theorem loop_all_ok (p : Flag Body → Flag Body) (fs : List (Flag Body))
    (h : ∀ f ∈ fs, Prep f = .ok (p f)) (idCache keyCache : mapCache Body) :
    EvalCache.fetchAllFlags.loop SafeString Prep fs idCache keyCache =
      (some ((fs.map p).foldl (idStep SafeString) idCache),
        some ((fs.map p).foldl keyStep keyCache), none) := by
  induction fs generalizing idCache keyCache with
  | nil => rfl
  | cons f fs ih =>
    rw [loop_cons_ok SafeString Prep (h f (List.mem_cons_self f fs))]
    rw [ih (fun g hg => h g (List.mem_cons_of_mem f hg))]
    rfl

/-- The loop stops at the first record whose preparation fails, with that
record's error and no map. -/
theorem loop_first_error (pre post : List (Flag Body)) (f : Flag Body) (e : GoError)
    (hpre : ∀ g ∈ pre, ∃ g1, Prep g = .ok g1) (hf : Prep f = .error e)
    (idCache keyCache : mapCache Body) :
    EvalCache.fetchAllFlags.loop SafeString Prep (pre ++ f :: post) idCache keyCache =
      (none, none, some e) := by
  induction pre generalizing idCache keyCache with
  | nil => exact loop_cons_error SafeString Prep hf post idCache keyCache
  | cons g pre ih =>
    obtain ⟨g1, hg⟩ := hpre g (List.mem_cons_self g pre)
    rw [List.cons_append, loop_cons_ok SafeString Prep hg]
    exact ih (fun x hx => hpre x (List.mem_cons_of_mem g hx)) _ _

/-- The loop returns either both maps and no error, or no map and an error. -/
theorem loop_shape (fs : List (Flag Body)) (idCache keyCache : mapCache Body) :
    (∃ m k, EvalCache.fetchAllFlags.loop SafeString Prep fs idCache keyCache =
        (some m, some k, none)) ∨
    (∃ e, EvalCache.fetchAllFlags.loop SafeString Prep fs idCache keyCache =
        (none, none, some e)) := by
  induction fs generalizing idCache keyCache with
  | nil => exact Or.inl ⟨idCache, keyCache, rfl⟩
  | cons f fs ih =>
    cases h : Prep f with
    | error e => exact Or.inr ⟨e, loop_cons_error SafeString Prep h fs idCache keyCache⟩
    | ok g =>
      rw [loop_cons_ok SafeString Prep h]
      exact ih _ _

/-- The loop returns an error exactly when some preparation fails. -/
theorem loop_error_iff (fs : List (Flag Body)) (idCache keyCache : mapCache Body) :
    (EvalCache.fetchAllFlags.loop SafeString Prep fs idCache keyCache).2.2 ≠ none ↔
      ∃ f ∈ fs, ∃ e, Prep f = .error e := by
  induction fs generalizing idCache keyCache with
  | nil => simp [loop_nil]
  | cons f fs ih =>
    cases h : Prep f with
    | error e =>
      rw [loop_cons_error SafeString Prep h]
      simp only [ne_eq, reduceCtorEq, not_false_eq_true, true_iff]
      exact ⟨f, List.mem_cons_self f fs, e, h⟩
    | ok g =>
      rw [loop_cons_ok SafeString Prep h, ih]
      constructor
      · rintro ⟨x, hx, e, he⟩
        exact ⟨x, List.mem_cons_of_mem f hx, e, he⟩
      · rintro ⟨x, hx, e, he⟩
        rcases List.mem_cons.1 hx with rfl | hx
        · rw [h] at he; cases he
        · exact ⟨x, hx, e, he⟩

end Loop

/-- The first build in closed form when every preparation succeeds. -/
theorem fetchAllFlags_all_ok (SafeString : Nat → String)
    (Prep : Flag Body → Except GoError (Flag Body)) (p : Flag Body → Flag Body)
    (fs : List (Flag Body)) (ec : EvalCache Body) (hprep : ∀ f ∈ fs, Prep f = .ok (p f)) :
    (EvalCache.fetchAllFlags SafeString Prep (fs, none) ec).2 =
      (some ((fs.map p).foldl (idStep SafeString) ∅),
        some ((fs.map p).foldl keyStep ∅), none) :=
  loop_all_ok SafeString Prep p fs hprep ∅ ∅

/-! ## What the maps hold after the loop -/

theorem idStep_eq_indexStep (SafeString : Nat → String) :
    (idStep SafeString : mapCache Body → Flag Body → mapCache Body) =
      indexStep (fun f => decide (f.ID ≠ 0)) (fun f => SafeString f.ID) := by
  funext m f
  simp [idStep, indexStep]

theorem keyStep_eq_indexStep :
    (keyStep : mapCache Body → Flag Body → mapCache Body) =
      indexStep (fun f => decide (f.Key ≠ "")) (fun f => f.Key) := by
  funext m f
  simp [keyStep, indexStep]

theorem lookup_indexStep (cond : Flag Body → Bool) (key : Flag Body → String)
    (m : mapCache Body) (f : Flag Body) (s : String) :
    AList.lookup s (indexStep cond key m f) =
      if (cond f && decide (key f = s)) = true then some f else AList.lookup s m := by
  unfold indexStep
  by_cases hc : cond f = true
  · by_cases hk : key f = s
    · subst hk
      simp [hc, AList.lookup_insert]
    · have hk1 : s ≠ key f := fun h => hk h.symm
      simp [hc, hk, AList.lookup_insert_ne hk1]
  · simp [hc]

/-- The map after the loop, read at `s`: the last record of the list that was
stored under `s`, or what the map held before the loop. -/
theorem lookup_foldl_indexStep (cond : Flag Body → Bool) (key : Flag Body → String)
    (ps : List (Flag Body)) (m : mapCache Body) (s : String) :
    AList.lookup s (ps.foldl (indexStep cond key) m) =
      (ps.reverse.find? (fun q => cond q && decide (key q = s))).or (AList.lookup s m) := by
  induction ps generalizing m with
  | nil => simp
  | cons a ps ih =>
    rw [List.foldl_cons, ih, List.reverse_cons, List.find?_append, lookup_indexStep]
    cases ps.reverse.find? (fun q => cond q && decide (key q = s)) with
    | some q => simp
    | none =>
      by_cases h : (cond a && decide (key a = s)) = true
      · simp [List.find?_cons, h]
      · simp [List.find?_cons, h]

/-- The first match of the reversed list is the last match of the list. -/
theorem find?_reverse_eq_some_iff {α : Type} (P : α → Bool) (l : List α) (q : α) :
    l.reverse.find? P = some q ↔
      ∃ pre post, l = pre ++ q :: post ∧ P q = true ∧ ∀ x ∈ post, P x = false := by
  rw [List.find?_eq_some]
  constructor
  · rintro ⟨hq, as, bs, hl, has⟩
    refine ⟨bs.reverse, as.reverse, ?_, hq, ?_⟩
    · have := congrArg List.reverse hl
      simpa using this
    · intro x hx
      have := has x (List.mem_reverse.1 hx)
      simpa using this
  · rintro ⟨pre, post, hl, hq, hpost⟩
    refine ⟨hq, post.reverse, pre.reverse, ?_, ?_⟩
    · rw [hl]; simp
    · intro x hx
      have := hpost x (List.mem_reverse.1 hx)
      simp [this]

/-- The by-id map after the loop from the empty map. -/
theorem lookup_foldl_idStep (SafeString : Nat → String) (ps : List (Flag Body)) (s : String) :
    AList.lookup s (ps.foldl (idStep SafeString) ∅) =
      ps.reverse.find? (fun q => decide (q.ID ≠ 0) && decide (SafeString q.ID = s)) := by
  rw [idStep_eq_indexStep, lookup_foldl_indexStep, AList.lookup_empty, Option.or_none]

/-- The by-key map after the loop from the empty map. -/
theorem lookup_foldl_keyStep (ps : List (Flag Body)) (k : String) :
    AList.lookup k (ps.foldl keyStep ∅) =
      ps.reverse.find? (fun q => decide (q.Key ≠ "") && decide (q.Key = k)) := by
  rw [keyStep_eq_indexStep, lookup_foldl_indexStep, AList.lookup_empty, Option.or_none]

/-- Two lists with the same members among those satisfying `P`, of which the
first list holds at most one, have the same first match. -/
theorem find?_eq_of_same_members {α : Type} (P : α → Bool) (l1 l2 : List α)
    (hmem : ∀ x, P x = true → (x ∈ l1 ↔ x ∈ l2))
    (huniq : ∀ a ∈ l1, ∀ b ∈ l1, P a = true → P b = true → a = b) :
    l1.find? P = l2.find? P := by
  cases h1 : l1.find? P with
  | none =>
    symm
    rw [List.find?_eq_none] at h1 ⊢
    exact fun x hx hp => h1 x ((hmem x hp).2 hx) hp
  | some a =>
    have ha := List.find?_some h1
    have hal := List.mem_of_find?_eq_some h1
    cases h2 : l2.find? P with
    | none =>
      rw [List.find?_eq_none] at h2
      exact absurd ha (h2 a ((hmem a ha).1 hal))
    | some b =>
      have hb := List.find?_some h2
      have hbl := (hmem b hb).2 (List.mem_of_find?_eq_some h2)
      rw [huniq a hal b hbl ha hb]

/-! ## The loop of export -/

/-- The loop of `export` collects the values of the visited entries in visiting
order. -/
theorem foldl_append_values (es : List (Sigma fun _ : String => Flag Body))
    (acc : List (Flag Body)) :
    es.foldl (fun fs e => fs ++ [e.2]) acc = acc ++ es.map (fun e => e.2) := by
  induction es generalizing acc with
  | nil => simp
  | cons e es ih => simp [ih]

/-- The envelope returned by `export`, as the values of the visited entries. -/
theorem export_flags (mapRange : mapCache Body → List (Sigma fun _ : String => Flag Body))
    (hrange : ∀ m, (mapRange m).Perm m.entries) (ec : EvalCache Body) :
    ((EvalCache.export mapRange ec).2.Flags).Perm ((cacheEntries ec.idCache).map fun e => e.2) := by
  obtain ⟨idc, keyc⟩ := ec
  cases idc with
  | none => simp [EvalCache.export, cacheEntries]
  | some m =>
    simp only [EvalCache.export, cacheEntries, foldl_append_values, List.nil_append]
    exact (hrange m).map _

/-! ## The example of the specification -/

/-- The three records of the example, built from an empty cache: record 1 is
found under the ID 1 and the Key "a", record 2 under the ID 2, record 3 under
the Key "b", and nothing is found under the ID 3. -/
theorem exampleFlags_lookups :
    (builtCache toString markPrepared exampleFlags).idCache.bind (AList.lookup (toString 1)) =
      some ⟨1, "a", true⟩ ∧
    (builtCache toString markPrepared exampleFlags).idCache.bind (AList.lookup (toString 2)) =
      some ⟨2, "", true⟩ ∧
    (builtCache toString markPrepared exampleFlags).keyCache.bind (AList.lookup "a") =
      some ⟨1, "a", true⟩ ∧
    (builtCache toString markPrepared exampleFlags).keyCache.bind (AList.lookup "b") =
      some ⟨0, "b", true⟩ ∧
    (builtCache toString markPrepared exampleFlags).idCache.bind (AList.lookup (toString 3)) =
      none := by
  decide

/-! ## C1: records found under their ID and their Key -/

/-- C1 (as stated, refuted): two fetched records share the ID 7; the by-id map
at "7" holds the prepared second record, so the first record, whose ID is not
zero, is not the value found under its ID. -/
theorem EvalCache_fetchAllFlags_shared_id_counterexample :
    ((EvalCache.fetchAllFlags toString markPrepared (sharedIDFlags, none) emptyCache).2.1.bind
      (AList.lookup (toString 7))) = some ⟨7, "b", true⟩ ∧
    ¬ EveryRecordIndexed toString markPrepared marked sharedIDFlags emptyCache := by
  have hlook : ((EvalCache.fetchAllFlags toString markPrepared (sharedIDFlags, none)
      emptyCache).2.1.bind (AList.lookup (toString 7))) = some ⟨7, "b", true⟩ := by decide
  refine ⟨hlook, ?_⟩
  rintro ⟨idc, keyc, hres, hall⟩
  have h1 := (hall ⟨7, "a", false⟩ (by decide)).1 (by decide)
  rw [hres] at hlook
  simp only [Option.some_bind] at hlook
  rw [hlook] at h1
  revert h1
  decide

/-- C1 (amended): when every preparation succeeds and leaves ID and Key as they
are, and stringification separates the IDs of the list, every record with a
non-zero ID that no later record of the list shares is found, prepared, in the
by-id map under its stringified ID, and every record with a non-empty Key that
no later record shares is found, prepared, in the by-key map under its Key; a
record with both is the value found in both maps. -/
theorem EvalCache_fetchAllFlags_indexes_last (SafeString : Nat → String)
    (Prep : Flag Body → Except GoError (Flag Body)) (p : Flag Body → Flag Body)
    (fs : List (Flag Body)) (ec : EvalCache Body)
    (hprep : ∀ f ∈ fs, Prep f = .ok (p f))
    (hkeep : ∀ f ∈ fs, (p f).ID = f.ID ∧ (p f).Key = f.Key)
    (hinj : ∀ a ∈ fs, ∀ b ∈ fs, SafeString a.ID = SafeString b.ID → a.ID = b.ID) :
    ∃ idc keyc,
      (EvalCache.fetchAllFlags SafeString Prep (fs, none) ec).2 = (some idc, some keyc, none) ∧
      ∀ pre r post, fs = pre ++ r :: post →
        (r.ID ≠ 0 → (∀ x ∈ post, x.ID ≠ r.ID) →
          AList.lookup (SafeString r.ID) idc = some (p r)) ∧
        (r.Key ≠ "" → (∀ x ∈ post, x.Key ≠ r.Key) →
          AList.lookup r.Key keyc = some (p r)) := by
  refine ⟨(fs.map p).foldl (idStep SafeString) ∅, (fs.map p).foldl keyStep ∅,
    loop_all_ok SafeString Prep p fs hprep ∅ ∅, ?_⟩
  intro pre r post hfs
  have hr : r ∈ fs := by rw [hfs]; simp
  have hpost : ∀ x ∈ post, x ∈ fs := fun x hx => by rw [hfs]; simp [hx]
  have hmap : fs.map p = pre.map p ++ p r :: post.map p := by rw [hfs]; simp
  constructor
  · intro hne hlast
    rw [lookup_foldl_idStep, find?_reverse_eq_some_iff]
    refine ⟨pre.map p, post.map p, hmap, ?_, ?_⟩
    · simp [(hkeep r hr).1, hne]
    · intro y hy
      obtain ⟨x, hx, rfl⟩ := List.mem_map.1 hy
      have hxne : SafeString x.ID ≠ SafeString r.ID :=
        fun h => hlast x hx (hinj x (hpost x hx) r hr h)
      simp [(hkeep x (hpost x hx)).1, hxne]
  · intro hne hlast
    rw [lookup_foldl_keyStep, find?_reverse_eq_some_iff]
    refine ⟨pre.map p, post.map p, hmap, ?_, ?_⟩
    · simp [(hkeep r hr).2, hne]
    · intro y hy
      obtain ⟨x, hx, rfl⟩ := List.mem_map.1 hy
      simp [(hkeep x (hpost x hx)).2, hlast x hx]

/-- Witness of C1 (amended) at the three records of the example. -/
theorem EvalCache_fetchAllFlags_indexes_last_witness :
    ((∀ f ∈ exampleFlags, markPrepared f = .ok (marked f)) ∧
     (∀ f ∈ exampleFlags, (marked f).ID = f.ID ∧ (marked f).Key = f.Key) ∧
     (∀ a ∈ exampleFlags, ∀ b ∈ exampleFlags, toString a.ID = toString b.ID → a.ID = b.ID)) ∧
    ∃ idc keyc,
      (EvalCache.fetchAllFlags toString markPrepared (exampleFlags, none) emptyCache).2 =
        (some idc, some keyc, none) ∧
      ∀ pre r post, exampleFlags = pre ++ r :: post →
        (r.ID ≠ 0 → (∀ x ∈ post, x.ID ≠ r.ID) →
          AList.lookup (toString r.ID) idc = some (marked r)) ∧
        (r.Key ≠ "" → (∀ x ∈ post, x.Key ≠ r.Key) →
          AList.lookup r.Key keyc = some (marked r)) :=
  ⟨⟨fun _ _ => rfl, fun _ _ => ⟨rfl, rfl⟩, by decide⟩,
    EvalCache_fetchAllFlags_indexes_last toString markPrepared marked exampleFlags emptyCache
      (fun _ _ => rfl) (fun _ _ => ⟨rfl, rfl⟩) (by decide)⟩

/-! ## C2: a failed build leaves the cache as it was -/

/-- C2: when `EvalCache.fetchAllFlags` fails, because the fetch failed or the
preparation of a fetched record failed, the cache after the call is the cache
before it: its by-id map and its by-key map are unchanged, and so is the value
of every function of the cache, its lookups among them. -/
theorem EvalCache_fetchAllFlags_failure_frame (SafeString : Nat → String)
    (Prep : Flag Body → Except GoError (Flag Body))
    (fetched : List (Flag Body) × Option GoError) (ec : EvalCache Body)
    (hfail : (EvalCache.fetchAllFlags SafeString Prep fetched ec).2.2.2 ≠ none) :
    (EvalCache.fetchAllFlags SafeString Prep fetched ec).1 = ec ∧
    (EvalCache.fetchAllFlags SafeString Prep fetched ec).1.idCache = ec.idCache ∧
    (EvalCache.fetchAllFlags SafeString Prep fetched ec).1.keyCache = ec.keyCache := by
  have h : (EvalCache.fetchAllFlags SafeString Prep fetched ec).1 = ec := by
    obtain ⟨fs, ferr⟩ := fetched
    cases ferr <;> rfl
  rw [h]
  exact ⟨rfl, rfl, rfl⟩

/-- Witness of C2 at an unreachable database backend and a cache holding the
snapshot of the example. -/
theorem EvalCache_fetchAllFlags_failure_frame_witness :
    (EvalCache.fetchAllFlags toString markPrepared
        (fetchAllFlags ⟨false, "mysql", "user@tcp/flagr", 59⟩ unreachableWorld).1
        exampleCache).2.2.2 ≠ none ∧
    ((EvalCache.fetchAllFlags toString markPrepared
        (fetchAllFlags ⟨false, "mysql", "user@tcp/flagr", 59⟩ unreachableWorld).1
        exampleCache).1 = exampleCache ∧
     (EvalCache.fetchAllFlags toString markPrepared
        (fetchAllFlags ⟨false, "mysql", "user@tcp/flagr", 59⟩ unreachableWorld).1
        exampleCache).1.idCache = exampleCache.idCache ∧
     (EvalCache.fetchAllFlags toString markPrepared
        (fetchAllFlags ⟨false, "mysql", "user@tcp/flagr", 59⟩ unreachableWorld).1
        exampleCache).1.keyCache = exampleCache.keyCache) :=
  ⟨by decide,
    EvalCache_fetchAllFlags_failure_frame toString markPrepared
      (fetchAllFlags ⟨false, "mysql", "user@tcp/flagr", 59⟩ unreachableWorld).1
      exampleCache (by decide)⟩

/-! ## C3: when the build fails and with which error -/

/-- C3: `EvalCache.fetchAllFlags` returns an error exactly when the fetch fails
or the preparation of some fetched record fails; the error is the fetch error,
or the error of the first record in list order whose preparation fails; with an
error both maps are nil, without one both maps are returned. -/
theorem EvalCache_fetchAllFlags_error_iff (SafeString : Nat → String)
    (Prep : Flag Body → Except GoError (Flag Body))
    (fs : List (Flag Body)) (ferr : Option GoError) (ec : EvalCache Body) :
    ((EvalCache.fetchAllFlags SafeString Prep (fs, ferr) ec).2.2.2 ≠ none ↔
      (ferr ≠ none ∨ ∃ f ∈ fs, ∃ e, Prep f = .error e)) ∧
    (∀ e, ferr = some e →
      (EvalCache.fetchAllFlags SafeString Prep (fs, ferr) ec).2 = (none, none, some e)) ∧
    (ferr = none → ∀ pre f post e, fs = pre ++ f :: post →
      (∀ g ∈ pre, ∃ g1, Prep g = .ok g1) → Prep f = .error e →
      (EvalCache.fetchAllFlags SafeString Prep (fs, ferr) ec).2 = (none, none, some e)) ∧
    ((EvalCache.fetchAllFlags SafeString Prep (fs, ferr) ec).2.2.2 ≠ none →
      (EvalCache.fetchAllFlags SafeString Prep (fs, ferr) ec).2.1 = none ∧
      (EvalCache.fetchAllFlags SafeString Prep (fs, ferr) ec).2.2.1 = none) ∧
    ((EvalCache.fetchAllFlags SafeString Prep (fs, ferr) ec).2.2.2 = none →
      (EvalCache.fetchAllFlags SafeString Prep (fs, ferr) ec).2.1 ≠ none ∧
      (EvalCache.fetchAllFlags SafeString Prep (fs, ferr) ec).2.2.1 ≠ none) := by
  cases ferr with
  | some e0 =>
    have h : (EvalCache.fetchAllFlags SafeString Prep (fs, some e0) ec).2 =
        (none, none, some e0) := rfl
    rw [h]
    simp
  | none =>
    have h : (EvalCache.fetchAllFlags SafeString Prep (fs, none) ec).2 =
        EvalCache.fetchAllFlags.loop SafeString Prep fs ∅ ∅ := rfl
    rw [h]
    refine ⟨?_, ?_, ?_, ?_, ?_⟩
    · rw [loop_error_iff]; simp
    · intro e he; cases he
    · intro _ pre f post e hfs hpre hf
      rw [hfs]
      exact loop_first_error SafeString Prep pre post f e hpre hf ∅ ∅
    · intro herr
      rcases loop_shape SafeString Prep fs ∅ ∅ with ⟨m, k, hl⟩ | ⟨e, hl⟩
      · rw [hl] at herr; exact absurd rfl herr
      · rw [hl]; exact ⟨rfl, rfl⟩
    · intro herr
      rcases loop_shape SafeString Prep fs ∅ ∅ with ⟨m, k, hl⟩ | ⟨e, hl⟩
      · rw [hl]; simp
      · rw [hl] at herr; cases herr

/-! ## C4, C5, C6: the backend selector -/

/-- C4: in evaluation-only mode, for every driver name other than "json_file"
and "json_http", `newFetcher` returns no fetcher and the error with the message
"failed to create evaluation cache fetcher. DBDriver:<driver> is not supported",
and the package-level `fetchAllFlags` returns that same error with no records
and calls `fetch` on no backend. -/
theorem newFetcher_unsupported_driver (cfg : Config) (W : World Body)
    (hmode : cfg.EvalOnlyMode = true)
    (hfile : cfg.DBDriver ≠ "json_file") (hhttp : cfg.DBDriver ≠ "json_http") :
    newFetcher cfg W.getDB = .error ⟨"failed to create evaluation cache fetcher. DBDriver:"
      ++ cfg.DBDriver ++ " is not supported"⟩ ∧
    fetchAllFlags cfg W = (([], some ⟨"failed to create evaluation cache fetcher. DBDriver:"
      ++ cfg.DBDriver ++ " is not supported"⟩), []) := by
  have h : newFetcher cfg W.getDB = .error ⟨"failed to create evaluation cache fetcher. DBDriver:"
      ++ cfg.DBDriver ++ " is not supported"⟩ := by
    simp [newFetcher, hmode, hfile, hhttp]
  exact ⟨h, by simp [fetchAllFlags, h]⟩

/-- Witness of C4 at the driver name "mysql". -/
theorem newFetcher_unsupported_driver_witness :
    newFetcher ⟨true, "mysql", "user@tcp/flagr", 59⟩ unreachableWorld.getDB =
      .error ⟨"failed to create evaluation cache fetcher. DBDriver:" ++ "mysql"
        ++ " is not supported"⟩ ∧
    fetchAllFlags ⟨true, "mysql", "user@tcp/flagr", 59⟩ unreachableWorld =
      (([], some ⟨"failed to create evaluation cache fetcher. DBDriver:" ++ "mysql"
        ++ " is not supported"⟩), []) :=
  newFetcher_unsupported_driver ⟨true, "mysql", "user@tcp/flagr", 59⟩ unreachableWorld rfl
    (by decide) (by decide)

/-- C5: `newFetcher` follows the selection table. Outside evaluation-only mode
it returns the database fetcher for every driver name; in evaluation-only mode
the driver "json_file" gives the file fetcher on the connection string and the
driver "json_http" gives the HTTP fetcher on the connection string. -/
theorem newFetcher_selection_table (cfg : Config) (getDB : DB) :
    (cfg.EvalOnlyMode = false → newFetcher cfg getDB = .ok (.db { db := getDB })) ∧
    (cfg.EvalOnlyMode = true → cfg.DBDriver = "json_file" →
      newFetcher cfg getDB = .ok (.jsonFile { filePath := cfg.DBConnectionStr })) ∧
    (cfg.EvalOnlyMode = true → cfg.DBDriver = "json_http" →
      newFetcher cfg getDB = .ok (.jsonHTTP { url := cfg.DBConnectionStr })) := by
  refine ⟨fun h => ?_, fun h hd => ?_, fun h hd => ?_⟩
  · simp [newFetcher, h]
  · simp [newFetcher, h, hd]
  · simp [newFetcher, h, hd]

/-- The constructor `newS3Fetcher` does not depend on its connection string,
and leaves region, bucket and key empty. -/
theorem newS3Fetcher_ignores_connectionStr (W : World Body) (c1 c2 : String) :
    newS3Fetcher W c1 = newS3Fetcher W c2 ∧
    (newS3Fetcher W c1).1.region = "" ∧ (newS3Fetcher W c1).1.bucket = "" ∧
    (newS3Fetcher W c1).1.key = "" :=
  ⟨rfl, rfl, rfl, rfl⟩

/-- C6 (the code against the claim): no configuration makes `newFetcher` return
the object-storage fetcher, so no driver name selects the fourth backend; in
evaluation-only mode the driver name "json_s3" gives the unsupported-driver
error. -/
theorem newFetcher_never_s3 :
    (∀ (cfg : Config) (getDB : DB) (sf : s3Fetcher), newFetcher cfg getDB ≠ .ok (.s3 sf)) ∧
    newFetcher ⟨true, "json_s3", "region=us-east-1 bucket=flags key=flags.json", 59⟩ ⟨0⟩ =
      .error ⟨"failed to create evaluation cache fetcher. DBDriver:json_s3 is not supported"⟩ := by
  refine ⟨fun cfg getDB sf => ?_, by simp [newFetcher]⟩
  unfold newFetcher
  split_ifs <;> simp

/-! ## C7: export -/

/-- C7: for every cache state, `export` returns an envelope whose Flags list is
a permutation of the values of the current by-id map, one per entry, so its
length is the number of by-id entries; a record that is a value of the by-key
map and not of the by-id map is not in the list; the cache is unchanged. -/
theorem EvalCache_export_lists_idCache
    (mapRange : mapCache Body → List (Sigma fun _ : String => Flag Body))
    (hrange : ∀ m, (mapRange m).Perm m.entries) (ec : EvalCache Body) :
    (EvalCache.export mapRange ec).1 = ec ∧
    (EvalCache.export mapRange ec).2.Flags.length = (cacheEntries ec.idCache).length ∧
    ((EvalCache.export mapRange ec).2.Flags).Perm
      ((cacheEntries ec.idCache).map fun e => e.2) ∧
    (∀ r k, ec.keyCache.bind (AList.lookup k) = some r →
      (∀ s, ec.idCache.bind (AList.lookup s) ≠ some r) →
      r ∉ (EvalCache.export mapRange ec).2.Flags) := by
  have hperm := export_flags mapRange hrange ec
  refine ⟨rfl, ?_, hperm, ?_⟩
  · rw [hperm.length_eq, List.length_map]
  · intro r k _ hid hmem
    have hmem1 := hperm.mem_iff.1 hmem
    obtain ⟨e, he, rfl⟩ := List.mem_map.1 hmem1
    obtain ⟨idc, keyc⟩ := ec
    cases idc with
    | none => simp [cacheEntries] at he
    | some m =>
      apply hid e.1
      simp only [Option.some_bind]
      exact AList.mem_lookup_iff.2 he

/-- Witness of C7 at a cache with two by-id entries and a record indexed by key
only, the entries visited in reverse order. -/
theorem EvalCache_export_lists_idCache_witness :
    (∀ m : mapCache Bool, (m.entries.reverse).Perm m.entries) ∧
    ((EvalCache.export (fun m => m.entries.reverse) exampleCache).1 = exampleCache ∧
     (EvalCache.export (fun m => m.entries.reverse) exampleCache).2.Flags.length =
       (cacheEntries exampleCache.idCache).length ∧
     ((EvalCache.export (fun m => m.entries.reverse) exampleCache).2.Flags).Perm
       ((cacheEntries exampleCache.idCache).map fun e => e.2) ∧
     (∀ r k, exampleCache.keyCache.bind (AList.lookup k) = some r →
       (∀ s, exampleCache.idCache.bind (AList.lookup s) ≠ some r) →
       r ∉ (EvalCache.export (fun m => m.entries.reverse) exampleCache).2.Flags)) :=
  ⟨fun m => List.reverse_perm m.entries,
    EvalCache_export_lists_idCache (fun m => m.entries.reverse)
      (fun m => List.reverse_perm m.entries) exampleCache⟩

/-! ## C8: round trip -/

/-- C8 (as stated, refuted): the list holds one record with ID 0 and Key "b";
its IDs and its Keys are pairwise distinct and its preparation succeeds. The
first snapshot finds the record under "b"; the export, taken from the by-id
map, is empty, so the second snapshot has no entry under "b". -/
theorem export_round_trip_key_only_counterexample :
    ((keyOnlyFlags.map fun f => f.ID).Nodup ∧ (keyOnlyFlags.map fun f => f.Key).Nodup ∧
      (∀ f ∈ keyOnlyFlags, markPrepared f = .ok (marked f)) ∧
      rereadExport toString markPrepared AList.entries tableWorld tableMarshal keyOnlyFlags =
        ((EvalCache.export AList.entries (builtCache toString markPrepared keyOnlyFlags)).2,
          none)) ∧
    (builtCache toString markPrepared keyOnlyFlags).keyCache.bind (AList.lookup "b") =
      some ⟨0, "b", true⟩ ∧
    (rebuilt toString markPrepared AList.entries tableWorld tableMarshal keyOnlyFlags).2.1.bind
      (AList.lookup "b") = none ∧
    ¬ RoundTripLaw toString markPrepared AList.entries tableWorld tableMarshal keyOnlyFlags := by
  have h1 : (builtCache toString markPrepared keyOnlyFlags).keyCache.bind (AList.lookup "b") =
      some ⟨0, "b", true⟩ := by decide
  have h2 : (rebuilt toString markPrepared AList.entries tableWorld tableMarshal
      keyOnlyFlags).2.1.bind (AList.lookup "b") = none := by decide
  refine ⟨⟨by decide, by decide, fun _ _ => rfl, rfl⟩, h1, h2, fun h => ?_⟩
  have h3 := h.2.2.2.2 "b"
  rw [h1, h2] at h3
  cases h3

/-- C8 (amended): for every record list with pairwise distinct IDs and pairwise
distinct Keys in which every record with a non-empty Key has a non-zero ID,
whose preparation succeeds, leaves ID and Key as they are and leaves a prepared
record as it is, with a stringification that separates the IDs of the list and
an envelope encoding that the read returns unchanged, building a snapshot,
exporting it, reading the encoded export back and building again gives a by-id
map and a by-key map that agree with the first snapshot at every key. -/
theorem export_round_trip (SafeString : Nat → String)
    (Prep : Flag Body → Except GoError (Flag Body)) (p : Flag Body → Flag Body)
    (mapRange : mapCache Body → List (Sigma fun _ : String => Flag Body))
    (W : World Body) (Marshal : EvalCacheJSON Body → Bytes) (fs : List (Flag Body))
    (hprep : ∀ f ∈ fs, Prep f = .ok (p f))
    (hkeep : ∀ f ∈ fs, (p f).ID = f.ID ∧ (p f).Key = f.Key)
    (hidem : ∀ f ∈ fs, Prep (p f) = .ok (p f))
    (hinj : ∀ a ∈ fs, ∀ b ∈ fs, SafeString a.ID = SafeString b.ID → a.ID = b.ID)
    (hids : (fs.map fun f => f.ID).Nodup) (hkeys : (fs.map fun f => f.Key).Nodup)
    (hnz : ∀ f ∈ fs, f.Key ≠ "" → f.ID ≠ 0)
    (hrange : ∀ m, (mapRange m).Perm m.entries)
    (hcodec : rereadExport SafeString Prep mapRange W Marshal fs =
      ((EvalCache.export mapRange (builtCache SafeString Prep fs)).2, none)) :
    RoundTripLaw SafeString Prep mapRange W Marshal fs := by
  -- the first snapshot
  have h1 := fetchAllFlags_all_ok SafeString Prep p fs ⟨none, none⟩ hprep
  have hbuilt : builtCache SafeString Prep fs =
      ⟨some ((fs.map p).foldl (idStep SafeString) ∅), some ((fs.map p).foldl keyStep ∅)⟩ := by
    simp [builtCache, h1]
  -- facts about the prepared list
  have hps_id : ∀ a ∈ fs.map p, ∀ b ∈ fs.map p, SafeString a.ID = SafeString b.ID → a = b := by
    intro a ha b hb hab
    obtain ⟨f, hf, rfl⟩ := List.mem_map.1 ha
    obtain ⟨g, hg, rfl⟩ := List.mem_map.1 hb
    rw [(hkeep f hf).1, (hkeep g hg).1] at hab
    rw [List.inj_on_of_nodup_map hids hf hg (hinj f hf g hg hab)]
  have hps_key : ∀ a ∈ fs.map p, ∀ b ∈ fs.map p, a.Key = b.Key → a = b := by
    intro a ha b hb hab
    obtain ⟨f, hf, rfl⟩ := List.mem_map.1 ha
    obtain ⟨g, hg, rfl⟩ := List.mem_map.1 hb
    rw [(hkeep f hf).2, (hkeep g hg).2] at hab
    rw [List.inj_on_of_nodup_map hkeys hf hg hab]
  have hps_nz : ∀ a ∈ fs.map p, a.Key ≠ "" → a.ID ≠ 0 := by
    intro a ha
    obtain ⟨f, hf, rfl⟩ := List.mem_map.1 ha
    rw [(hkeep f hf).1, (hkeep f hf).2]
    exact hnz f hf
  have hps_prep : ∀ a ∈ fs.map p, Prep a = .ok (id a) := by
    intro a ha
    obtain ⟨f, hf, rfl⟩ := List.mem_map.1 ha
    exact hidem f hf
  -- the exported records are the prepared records with a non-zero ID
  have hperm := export_flags mapRange hrange (builtCache SafeString Prep fs)
  have hmem : ∀ q, q ∈ (EvalCache.export mapRange (builtCache SafeString Prep fs)).2.Flags ↔
      q ∈ fs.map p ∧ q.ID ≠ 0 := by
    intro q
    rw [hperm.mem_iff, hbuilt]
    show q ∈ List.map (fun e => e.2)
      (AList.entries ((fs.map p).foldl (idStep SafeString) ∅)) ↔ q ∈ fs.map p ∧ q.ID ≠ 0
    constructor
    · intro h
      obtain ⟨e, he, rfl⟩ := List.mem_map.1 h
      have hl : AList.lookup e.1 ((fs.map p).foldl (idStep SafeString) ∅) = some e.2 :=
        AList.mem_lookup_iff.2 he
      rw [lookup_foldl_idStep] at hl
      have hp := List.find?_some hl
      simp only [Bool.and_eq_true, decide_eq_true_eq] at hp
      exact ⟨List.mem_reverse.1 (List.mem_of_find?_eq_some hl), hp.1⟩
    · rintro ⟨hq, hq0⟩
      apply List.mem_map.2
      refine ⟨⟨SafeString q.ID, q⟩, ?_, rfl⟩
      apply AList.mem_lookup_iff.1
      rw [Option.mem_def, lookup_foldl_idStep, find?_reverse_eq_some_iff]
      obtain ⟨pre, post, hsplit⟩ := List.append_of_mem hq
      refine ⟨pre, post, hsplit, by simp [hq0], ?_⟩
      intro x hx
      have hxmem : x ∈ fs.map p := by rw [hsplit]; simp [hx]
      by_cases hxq : SafeString x.ID = SafeString q.ID
      · exfalso
        have hxe := hps_id x hxmem q hq hxq
        have hnd : (fs.map p).Nodup := by
          have : ((fs.map p).map fun f => f.ID) = fs.map fun f => f.ID := by
            rw [List.map_map]
            exact List.map_congr_left fun f hf => (hkeep f hf).1
          exact List.Nodup.of_map _ (this ▸ hids)
        rw [hsplit] at hnd
        have := (List.nodup_cons.1 (List.nodup_append.1 hnd).2.1).1
        exact this (hxe ▸ hx)
      · simp [hxq]
  -- the second snapshot
  have hflags : (rereadExport SafeString Prep mapRange W Marshal fs).1.Flags =
      (EvalCache.export mapRange (builtCache SafeString Prep fs)).2.Flags := by rw [hcodec]
  have h2 := fetchAllFlags_all_ok SafeString Prep id
    (EvalCache.export mapRange (builtCache SafeString Prep fs)).2.Flags
    (builtCache SafeString Prep fs) (fun q hq => hps_prep q ((hmem q).1 hq).1)
  rw [List.map_id] at h2
  have hreb : rebuilt SafeString Prep mapRange W Marshal fs =
      (some ((EvalCache.export mapRange (builtCache SafeString Prep fs)).2.Flags.foldl
          (idStep SafeString) ∅),
        some ((EvalCache.export mapRange (builtCache SafeString Prep fs)).2.Flags.foldl
          keyStep ∅), none) := by
    unfold rebuilt
    rw [hflags]
    exact h2
  refine ⟨by rw [h1], by rw [hcodec], by rw [hreb], ?_, ?_⟩
  · intro s
    rw [hreb]
    conv_rhs => rw [hbuilt]
    simp only [Option.some_bind]
    rw [lookup_foldl_idStep, lookup_foldl_idStep]
    apply find?_eq_of_same_members
    · intro x hpx
      simp only [Bool.and_eq_true, decide_eq_true_eq] at hpx
      rw [List.mem_reverse, List.mem_reverse, hmem x]
      exact ⟨fun h => h.1, fun h => ⟨h, hpx.1⟩⟩
    · intro a ha b hb hpa hpb
      have ha1 := ((hmem a).1 (List.mem_reverse.1 ha)).1
      have hb1 := ((hmem b).1 (List.mem_reverse.1 hb)).1
      simp only [Bool.and_eq_true, decide_eq_true_eq] at hpa hpb
      exact hps_id a ha1 b hb1 (hpa.2.trans hpb.2.symm)
  · intro k
    rw [hreb]
    conv_rhs => rw [hbuilt]
    simp only [Option.some_bind]
    rw [lookup_foldl_keyStep, lookup_foldl_keyStep]
    apply find?_eq_of_same_members
    · intro x hpx
      simp only [Bool.and_eq_true, decide_eq_true_eq] at hpx
      rw [List.mem_reverse, List.mem_reverse, hmem x]
      exact ⟨fun h => h.1, fun h => ⟨h, hps_nz x h hpx.1⟩⟩
    · intro a ha b hb hpa hpb
      have ha1 := ((hmem a).1 (List.mem_reverse.1 ha)).1
      have hb1 := ((hmem b).1 (List.mem_reverse.1 hb)).1
      simp only [Bool.and_eq_true, decide_eq_true_eq] at hpa hpb
      exact hps_key a ha1 b hb1 (hpa.2.trans hpb.2.symm)

/-- Witness of C8 (amended) at three records, two with the IDs 1 and 2 and one
with ID 0 and an empty Key, the entries of the by-id map visited in stored
order. -/
theorem export_round_trip_witness :
    ((∀ f ∈ distinctFlags, markPrepared f = .ok (marked f)) ∧
     (∀ f ∈ distinctFlags, (marked f).ID = f.ID ∧ (marked f).Key = f.Key) ∧
     (∀ f ∈ distinctFlags, markPrepared (marked f) = .ok (marked f)) ∧
     (∀ a ∈ distinctFlags, ∀ b ∈ distinctFlags, toString a.ID = toString b.ID → a.ID = b.ID) ∧
     (distinctFlags.map fun f => f.ID).Nodup ∧ (distinctFlags.map fun f => f.Key).Nodup ∧
     (∀ f ∈ distinctFlags, f.Key ≠ "" → f.ID ≠ 0) ∧
     (∀ m : mapCache Bool, (AList.entries m).Perm m.entries) ∧
     rereadExport toString markPrepared AList.entries tableWorld tableMarshal distinctFlags =
       ((EvalCache.export AList.entries (builtCache toString markPrepared distinctFlags)).2,
         none)) ∧
    RoundTripLaw toString markPrepared AList.entries tableWorld tableMarshal distinctFlags :=
  ⟨⟨fun _ _ => rfl, fun _ _ => ⟨rfl, rfl⟩, fun _ _ => rfl, by decide, by decide, by decide,
      by decide, fun m => List.Perm.refl m.entries, by decide⟩,
    export_round_trip toString markPrepared marked AList.entries tableWorld tableMarshal
      distinctFlags (fun _ _ => rfl) (fun _ _ => ⟨rfl, rfl⟩) (fun _ _ => rfl) (by decide)
      (by decide) (by decide) (by decide) (fun m => List.Perm.refl m.entries) (by decide)⟩

/-! ## C9: the HTTP backend and the status code -/

/-- C9 (as stated, refuted): the endpoint answers with status 500, not a success
status, and a body that decodes to an envelope of one record; `fetch` returns
that record and no error. -/
theorem jsonHTTPFetcher_fetch_non_success_counterexample :
    jsonHTTPFetcher.fetch ⟨true, "json_http", "http://flags", 59⟩ serverErrorWorld
        ⟨"http://flags"⟩ = ([⟨1, "a", false⟩], none) ∧
    ¬ NonSuccessIsFailure ⟨true, "json_http", "http://flags", 59⟩ serverErrorWorld
        ⟨"http://flags"⟩ := by
  have hfetch : jsonHTTPFetcher.fetch ⟨true, "json_http", "http://flags", 59⟩ serverErrorWorld
      ⟨"http://flags"⟩ = ([⟨1, "a", false⟩], none) := rfl
  refine ⟨hfetch, fun h => ?_⟩
  have h1 := h ⟨500, ⟨.ok [1]⟩⟩ rfl (by decide)
  rw [hfetch] at h1
  exact h1.1 rfl

/-- C9 (amended): once the GET has returned a response, whatever its status
code, the result of `fetch` is decided by the body alone: the records of the
decoded envelope and no error when the body is read and decoded, the read error
or the decode error and no records otherwise. -/
theorem jsonHTTPFetcher_fetch_body_decides (cfg : Config) (W : World Body)
    (hf : jsonHTTPFetcher) (res : Response)
    (hget : W.Get cfg.EvalCacheRefreshTimeout hf.url = .ok res) :
    (∀ b ecj, res.Body.readAll = .ok b → W.Unmarshal b ⟨[]⟩ = (ecj, none) →
      hf.fetch cfg W = (ecj.Flags, none)) ∧
    (∀ e, res.Body.readAll = .error e → hf.fetch cfg W = ([], some e)) ∧
    (∀ b ecj e, res.Body.readAll = .ok b → W.Unmarshal b ⟨[]⟩ = (ecj, some e) →
      hf.fetch cfg W = ([], some e)) := by
  refine ⟨fun b ecj hb hu => ?_, fun e hb => ?_, fun b ecj e hb hu => ?_⟩
  · simp [jsonHTTPFetcher.fetch, hget, EvalCacheJSON.read, hb, hu]
  · simp [jsonHTTPFetcher.fetch, hget, EvalCacheJSON.read, hb]
  · simp [jsonHTTPFetcher.fetch, hget, EvalCacheJSON.read, hb, hu]

/-- Witness of C9 (amended) at a response with status 500. -/
theorem jsonHTTPFetcher_fetch_body_decides_witness :
    serverErrorWorld.Get 59 "http://flags" = .ok ⟨500, ⟨.ok [1]⟩⟩ ∧
    ((∀ b ecj, (.ok [1] : Except GoError Bytes) = .ok b →
        serverErrorWorld.Unmarshal b ⟨[]⟩ = (ecj, none) →
        jsonHTTPFetcher.fetch ⟨true, "json_http", "http://flags", 59⟩ serverErrorWorld
          ⟨"http://flags"⟩ = (ecj.Flags, none)) ∧
     (∀ e, (.ok [1] : Except GoError Bytes) = .error e →
        jsonHTTPFetcher.fetch ⟨true, "json_http", "http://flags", 59⟩ serverErrorWorld
          ⟨"http://flags"⟩ = ([], some e)) ∧
     (∀ b ecj e, (.ok [1] : Except GoError Bytes) = .ok b →
        serverErrorWorld.Unmarshal b ⟨[]⟩ = (ecj, some e) →
        jsonHTTPFetcher.fetch ⟨true, "json_http", "http://flags", 59⟩ serverErrorWorld
          ⟨"http://flags"⟩ = ([], some e))) :=
  ⟨rfl, jsonHTTPFetcher_fetch_body_decides ⟨true, "json_http", "http://flags", 59⟩
    serverErrorWorld ⟨"http://flags"⟩ ⟨500, ⟨.ok [1]⟩⟩ rfl⟩

/-! ## C10: the maps as folds of the fetched list -/

/-- C10: when every preparation succeeds, each map is the left-to-right fold of
the prepared list. The by-id map at `s` is the last prepared record with a
non-zero ID whose stringified form is `s`, and has no entry at `s` when there is
no such record; the by-key map at `k` is the last prepared record with a
non-empty Key equal to `k`, and has no entry otherwise, so none at the empty
key. A record with ID 0 and an empty Key is a value of neither map, and the
call returns no error. -/
theorem EvalCache_fetchAllFlags_last_wins (SafeString : Nat → String)
    (Prep : Flag Body → Except GoError (Flag Body)) (p : Flag Body → Flag Body)
    (fs : List (Flag Body)) (ec : EvalCache Body)
    (hprep : ∀ f ∈ fs, Prep f = .ok (p f)) :
    ∃ idc keyc,
      (EvalCache.fetchAllFlags SafeString Prep (fs, none) ec).2 = (some idc, some keyc, none) ∧
      (∀ s q, AList.lookup s idc = some q ↔
        ∃ pre post, fs.map p = pre ++ q :: post ∧ (q.ID ≠ 0 ∧ SafeString q.ID = s) ∧
          ∀ x ∈ post, ¬ (x.ID ≠ 0 ∧ SafeString x.ID = s)) ∧
      (∀ s, AList.lookup s idc = none ↔
        ∀ x ∈ fs.map p, ¬ (x.ID ≠ 0 ∧ SafeString x.ID = s)) ∧
      (∀ k q, AList.lookup k keyc = some q ↔
        ∃ pre post, fs.map p = pre ++ q :: post ∧ (q.Key ≠ "" ∧ q.Key = k) ∧
          ∀ x ∈ post, ¬ (x.Key ≠ "" ∧ x.Key = k)) ∧
      (∀ k, AList.lookup k keyc = none ↔
        ∀ x ∈ fs.map p, ¬ (x.Key ≠ "" ∧ x.Key = k)) ∧
      AList.lookup "" keyc = none ∧
      (∀ q, q.ID = 0 → q.Key = "" →
        (∀ s, AList.lookup s idc ≠ some q) ∧ ∀ k, AList.lookup k keyc ≠ some q) := by
  have hid : ∀ s q, AList.lookup s ((fs.map p).foldl (idStep SafeString) ∅) = some q ↔
      ∃ pre post, fs.map p = pre ++ q :: post ∧ (q.ID ≠ 0 ∧ SafeString q.ID = s) ∧
        ∀ x ∈ post, ¬ (x.ID ≠ 0 ∧ SafeString x.ID = s) := by
    intro s q
    rw [lookup_foldl_idStep, find?_reverse_eq_some_iff]
    simp
  have hkey : ∀ k q, AList.lookup k ((fs.map p).foldl keyStep ∅) = some q ↔
      ∃ pre post, fs.map p = pre ++ q :: post ∧ (q.Key ≠ "" ∧ q.Key = k) ∧
        ∀ x ∈ post, ¬ (x.Key ≠ "" ∧ x.Key = k) := by
    intro k q
    rw [lookup_foldl_keyStep, find?_reverse_eq_some_iff]
    simp
  have hkeynone : ∀ k, AList.lookup k ((fs.map p).foldl keyStep ∅) = none ↔
      ∀ x ∈ fs.map p, ¬ (x.Key ≠ "" ∧ x.Key = k) := by
    intro k
    rw [lookup_foldl_keyStep, List.find?_eq_none]
    simp
  refine ⟨(fs.map p).foldl (idStep SafeString) ∅, (fs.map p).foldl keyStep ∅, ?_, hid, ?_,
    hkey, hkeynone, ?_, ?_⟩
  · exact loop_all_ok SafeString Prep p fs hprep ∅ ∅
  · intro s
    rw [lookup_foldl_idStep, List.find?_eq_none]
    simp
  · rw [hkeynone]
    rintro x _ ⟨h1, h2⟩
    exact h1 h2
  · intro q hq0 hk0
    refine ⟨fun s h => ?_, fun k h => ?_⟩
    · obtain ⟨_, _, _, ⟨h1, _⟩, _⟩ := (hid s q).1 h
      exact h1 hq0
    · obtain ⟨_, _, _, ⟨h1, _⟩, _⟩ := (hkey k q).1 h
      exact h1 hk0

/-- Witness of C10 at the three records of the example. -/
theorem EvalCache_fetchAllFlags_last_wins_witness :
    (∀ f ∈ exampleFlags, markPrepared f = .ok (marked f)) ∧
    ∃ idc keyc,
      (EvalCache.fetchAllFlags toString markPrepared (exampleFlags, none) emptyCache).2 =
        (some idc, some keyc, none) ∧
      (∀ s q, AList.lookup s idc = some q ↔
        ∃ pre post, exampleFlags.map marked = pre ++ q :: post ∧
          (q.ID ≠ 0 ∧ toString q.ID = s) ∧
          ∀ x ∈ post, ¬ (x.ID ≠ 0 ∧ toString x.ID = s)) ∧
      (∀ s, AList.lookup s idc = none ↔
        ∀ x ∈ exampleFlags.map marked, ¬ (x.ID ≠ 0 ∧ toString x.ID = s)) ∧
      (∀ k q, AList.lookup k keyc = some q ↔
        ∃ pre post, exampleFlags.map marked = pre ++ q :: post ∧ (q.Key ≠ "" ∧ q.Key = k) ∧
          ∀ x ∈ post, ¬ (x.Key ≠ "" ∧ x.Key = k)) ∧
      (∀ k, AList.lookup k keyc = none ↔
        ∀ x ∈ exampleFlags.map marked, ¬ (x.Key ≠ "" ∧ x.Key = k)) ∧
      AList.lookup "" keyc = none ∧
      (∀ q, q.ID = 0 → q.Key = "" →
        (∀ s, AList.lookup s idc ≠ some q) ∧ ∀ k, AList.lookup k keyc ≠ some q) :=
  ⟨fun _ _ => rfl,
    EvalCache_fetchAllFlags_last_wins toString markPrepared marked exampleFlags emptyCache
      (fun _ _ => rfl)⟩

end Flagr
